import Mathlib

/-!
# Verification of the splitgraph core against its specification

Shallow embedding of the versioned table-storage engine from
`splitgraph/core/repository.py`, `splitgraph/config/config.py` and
`splitgraph/meta_handler/images.py`, together with proofs of the
specification claims about commit, diff, sync, import, materialization,
closest-base resolution, schema naming and configuration patching.

Strings from the Python source are modelled as `String` except in the
schema-name functions, where Python's character-level `split`/`in`
operators are modelled over `List Char`.
-/

namespace Splitgraph

/-! ## Repository schema names (repository.py: from_schema / to_schema) -/

/-- A repository identifier: namespace (may be empty) and repository name.
Names are modelled as character lists so that Python's `split("/")` and
`"/" in s` can be stated exactly. -/
structure Repo where
  namespace_ : List Char
  repository : List Char
deriving DecidableEq

/-- Helper for `pysplit`: accumulates the current field in reverse. -/
def splitAux (c : Char) : List Char → List Char → List (List Char)
  | [], acc => [acc.reverse]
  | x :: xs, acc =>
    if x = c then acc.reverse :: splitAux c xs [] else splitAux c xs (x :: acc)

/-- Python `s.split(sep)` for a one-character separator. -/
def pysplit (c : Char) (s : List Char) : List (List Char) := splitAux c s []

/-- `Repository.from_schema` (repository.py lines 89-95): a schema containing
`/` is split into namespace and repository; Python's two-name tuple unpacking
of the split result fails (returns `none` here) unless there are exactly two
parts; otherwise the namespace is empty. -/
def Repo.from_schema (schema : List Char) : Option Repo :=
  if '/' ∈ schema then
    match pysplit '/' schema with
    | [n, r] => some ⟨n, r⟩
    | _ => none
  else some ⟨[], schema⟩

/-- `Repository.to_schema` (repository.py lines 102-104):
`namespace + "/" + repository` when the namespace is non-empty, else the bare
repository name. -/
def Repo.to_schema (r : Repo) : List Char :=
  if r.namespace_ ≠ [] then r.namespace_ ++ '/' :: r.repository else r.repository

theorem splitAux_no_sep (c : Char) (l : List Char) (acc : List Char) (h : c ∉ l) :
    splitAux c l acc = [acc.reverse ++ l] := by
  induction l generalizing acc with
  | nil => simp [splitAux]
  | cons x xs ih =>
    simp only [List.mem_cons, not_or] at h
    simp [splitAux, Ne.symm h.1, ih _ h.2]

theorem splitAux_sep (c : Char) (l1 l2 : List Char) (acc : List Char) (h : c ∉ l1) :
    splitAux c (l1 ++ c :: l2) acc = (acc.reverse ++ l1) :: splitAux c l2 [] := by
  induction l1 generalizing acc with
  | nil => simp [splitAux]
  | cons x xs ih =>
    simp only [List.mem_cons, not_or] at h
    simp [splitAux, Ne.symm h.1, ih _ h.2]

/-- C9: For every repository whose namespace and repository contain no `/`,
`from_schema (to_schema r)` yields a repository with the same namespace and
repository; in particular an empty namespace maps to the bare repository name
and back. -/
theorem C9_from_schema_to_schema (r : Repo)
    (hn : '/' ∉ r.namespace_) (hr : '/' ∉ r.repository) :
    Repo.from_schema r.to_schema = some r := by
  obtain ⟨n, rep⟩ := r
  change '/' ∉ n at hn
  change '/' ∉ rep at hr
  show Repo.from_schema (if n ≠ [] then n ++ '/' :: rep else rep) = some ⟨n, rep⟩
  by_cases hne : n = []
  · subst hne
    rw [if_neg (fun h => h rfl)]
    unfold Repo.from_schema
    rw [if_neg hr]
  · rw [if_pos hne]
    have hin : '/' ∈ n ++ '/' :: rep := by simp
    unfold Repo.from_schema
    rw [if_pos hin, pysplit, splitAux_sep _ _ _ _ hn, splitAux_no_sep _ _ _ hr]
    simp

theorem C9_from_schema_to_schema_witness :
    ('/' ∉ (⟨['n', 's'], ['r']⟩ : Repo).namespace_) ∧
    ('/' ∉ (⟨['n', 's'], ['r']⟩ : Repo).repository) ∧
    Repo.from_schema (Repo.to_schema ⟨['n', 's'], ['r']⟩) = some ⟨['n', 's'], ['r']⟩ :=
  ⟨by decide, by decide, C9_from_schema_to_schema ⟨['n', 's'], ['r']⟩ (by decide) (by decide)⟩

/-! ## Configuration patching (config/config.py: patch_config) -/

/-- A configuration value: a leaf string or a nested section dictionary,
modelled as an insertion-ordered association list. -/
inductive CVal where
  | str : String → CVal
  | dict : List (String × CVal) → CVal

/-- Python `left[key] = value`: replace in place when the key is present,
append otherwise. -/
def setKey : List (String × CVal) → String → CVal → List (String × CVal)
  | [], k, v => [(k, v)]
  | (k0, v0) :: rest, k, v =>
    if k0 = k then (k0, v) :: rest else (k0, v0) :: setKey rest k v

/-- Python `left[key]` / `key in left` for the association-list model. -/
def lookupKey : List (String × CVal) → String → Option CVal
  | [], _ => none
  | (k0, v0) :: rest, k => if k0 = k then some v0 else lookupKey rest k

/-- `_patch_internal` from config.py lines 120-126: for each key of the patch,
recursively merge when both sides hold dictionaries at that key, otherwise
overwrite with the patch's value. -/
def patch_internal : List (String × CVal) → List (String × CVal) → List (String × CVal)
  | left, [] => left
  | left, (k, CVal.str s) :: rest => patch_internal (setKey left k (CVal.str s)) rest
  | left, (k, CVal.dict dv) :: rest =>
    match lookupKey left k with
    | some (CVal.dict dl) =>
        patch_internal (setKey left k (CVal.dict (patch_internal dl dv))) rest
    | _ => patch_internal (setKey left k (CVal.dict dv)) rest
termination_by _ r => sizeOf r
decreasing_by
  all_goals simp_wf
  all_goals omega

/-- `patch_config` from config.py lines 103-129: value-level model (the Python
function shallow-copies the config and merges the patch into the copy). -/
def patch_config (config patch : List (String × CVal)) : List (String × CVal) :=
  patch_internal config patch

/-- The value the patching rule assigns at one key: recursive merge when both
sides are dictionaries, the patch's value otherwise. -/
def patchedValue (oldVal : Option CVal) (v : CVal) : CVal :=
  match oldVal, v with
  | some (CVal.dict dl), CVal.dict dv => CVal.dict (patch_internal dl dv)
  | _, _ => v

theorem lookupKey_setKey_self (l : List (String × CVal)) (k : String) (v : CVal) :
    lookupKey (setKey l k v) k = some v := by
  induction l with
  | nil => simp [setKey, lookupKey]
  | cons p rest ih =>
    obtain ⟨k0, v0⟩ := p
    by_cases h : k0 = k
    · simp [setKey, lookupKey, h]
    · simp [setKey, lookupKey, h, ih]

theorem lookupKey_setKey_other (l : List (String × CVal)) (k k' : String) (v : CVal)
    (h : k' ≠ k) : lookupKey (setKey l k' v) k = lookupKey l k := by
  induction l with
  | nil => simp [setKey, lookupKey, h]
  | cons p rest ih =>
    obtain ⟨k0, v0⟩ := p
    by_cases h0 : k0 = k'
    · subst h0
      simp [setKey, lookupKey, h]
    · simp only [setKey, h0, if_false]
      by_cases h1 : k0 = k
      · simp [lookupKey, h1]
      · simp [lookupKey, h1, ih]

/-- One step of the patch loop, written with `patchedValue`. -/
theorem patch_internal_cons (left : List (String × CVal)) (k : String) (v : CVal)
    (rest : List (String × CVal)) :
    patch_internal left ((k, v) :: rest) =
      patch_internal (setKey left k (patchedValue (lookupKey left k) v)) rest := by
  cases v with
  | str s =>
    rw [patch_internal]
    cases h : lookupKey left k with
    | none => simp [patchedValue]
    | some w => cases w <;> simp [patchedValue]
  | dict dv =>
    rw [patch_internal]
    cases h : lookupKey left k with
    | none => simp [patchedValue, h]
    | some w => cases w <;> simp [patchedValue, h]

theorem lookupKey_patch_internal_not_mem (r l : List (String × CVal)) (k : String)
    (hk : k ∉ r.map Prod.fst) :
    lookupKey (patch_internal l r) k = lookupKey l k := by
  induction r generalizing l with
  | nil => rw [patch_internal]
  | cons p rest ih =>
    obtain ⟨k0, v0⟩ := p
    simp only [List.map_cons, List.mem_cons, not_or] at hk
    rw [patch_internal_cons, ih _ hk.2]
    exact lookupKey_setKey_other _ _ _ _ (fun h => hk.1 h.symm)

theorem lookupKey_patch_internal_mem (r l : List (String × CVal)) (k : String) (v : CVal)
    (hnd : (r.map Prod.fst).Nodup) (hmem : (k, v) ∈ r) :
    lookupKey (patch_internal l r) k = some (patchedValue (lookupKey l k) v) := by
  induction r generalizing l with
  | nil => cases hmem
  | cons p rest ih =>
    obtain ⟨k0, v0⟩ := p
    simp only [List.map_cons, List.nodup_cons] at hnd
    rcases List.mem_cons.mp hmem with hhead | htail
    · simp only [Prod.mk.injEq] at hhead
      obtain ⟨hk, hv⟩ := hhead
      subst hk
      subst hv
      rw [patch_internal_cons, lookupKey_patch_internal_not_mem _ _ _ hnd.1,
        lookupKey_setKey_self]
    · have hk0 : k0 ≠ k := by
        intro h
        subst h
        exact hnd.1 (List.mem_map.mpr ⟨(k0, v), htail, rfl⟩)
      rw [patch_internal_cons, ih _ hnd.2 htail, lookupKey_setKey_other _ _ _ _ hk0]

/-- C10: `patch_config` with an empty patch is the identity; every key of the
patch maps to the patch's value, except that two dictionaries at the same key
are merged recursively by the same rule; keys present only in the config keep
their original values. -/
theorem C10_patch_config (config patch : List (String × CVal))
    (hnd : (patch.map Prod.fst).Nodup) :
    patch_config config [] = config ∧
    (∀ k, k ∉ patch.map Prod.fst →
      lookupKey (patch_config config patch) k = lookupKey config k) ∧
    (∀ k v, (k, v) ∈ patch →
      lookupKey (patch_config config patch) k =
        some (patchedValue (lookupKey config k) v)) := by
  refine ⟨by rw [patch_config, patch_internal], ?_, ?_⟩
  · intro k hk
    exact lookupKey_patch_internal_not_mem _ _ _ hk
  · intro k v hmem
    exact lookupKey_patch_internal_mem _ _ _ _ hnd hmem

theorem C10_patch_config_witness :
    (([("a", CVal.str "x"), ("b", CVal.str "y")].map Prod.fst).Nodup) ∧
    (patch_config [("a", CVal.str "1")] [] = [("a", CVal.str "1")] ∧
     (∀ k, k ∉ [("a", CVal.str "x"), ("b", CVal.str "y")].map Prod.fst →
       lookupKey (patch_config [("a", CVal.str "1")] [("a", CVal.str "x"), ("b", CVal.str "y")]) k =
         lookupKey [("a", CVal.str "1")] k) ∧
     (∀ k v, (k, v) ∈ [("a", CVal.str "x"), ("b", CVal.str "y")] →
       lookupKey (patch_config [("a", CVal.str "1")] [("a", CVal.str "x"), ("b", CVal.str "y")]) k =
         some (patchedValue (lookupKey [("a", CVal.str "1")] k) v))) :=
  ⟨by decide, C10_patch_config [("a", CVal.str "1")] [("a", CVal.str "x"), ("b", CVal.str "y")]
    (by decide)⟩

/-! ## Shared helpers for the repository models -/

/-- Association-list lookup (models Python dict / keyed SQL row lookup). -/
def alookup {α : Type} : List (String × α) → String → Option α
  | [], _ => none
  | (k0, v0) :: rest, k => if k0 = k then some v0 else alookup rest k

/-! ## Commit decisions (repository.py: Repository._commit, lines 386-461) -/

/-- A table's column list (name, type) as returned by `get_full_table_schema`. -/
abbrev TableSchema := List (String × String)

/-- A table descriptor: schema plus the ordered object IDs (`Table.table_schema`
and `Table.objects`). -/
structure TableMeta where
  table_schema : TableSchema
  objects : List String
deriving DecidableEq

/-- Everything `_commit` reads about the current checkout. -/
structure CommitEnv where
  /-- `head.get_table` source: the parent image's table descriptors;
  `none` models a repository with no HEAD (first commit). -/
  headTables : Option (List (String × TableMeta))
  /-- `object_engine.get_all_tables(schema)`: tables of the working schema. -/
  allTables : List String
  /-- `object_engine.get_changed_tables(schema)`: the audit's changed set. -/
  changedTables : List String
  /-- `object_engine.get_full_table_schema(schema, t)` per working table. -/
  currentSchemas : List (String × TableSchema)
deriving DecidableEq

/-- `head.get_table(table)` with `TableNotFoundError` mapped to `none`
(repository.py lines 418-421). -/
def parentTableInfo (env : CommitEnv) (t : String) : Option TableMeta :=
  match env.headTables with
  | none => none
  | some ts => alookup ts t

/-- The working schema of table `t` (`get_full_table_schema`). -/
def currentSchemaOf (env : CommitEnv) (t : String) : TableSchema :=
  (alookup env.currentSchemas t).getD []

/-- The observable actions `_commit` can take for a table, plus the final
discard of pending changes. -/
inductive CommitEffect where
  | recordBase (table image_hash : String)
  | recordPatch (table image_hash : String) (split_changeset : Bool)
  | registerTable (image_hash table : String) (tschema : TableSchema) (objectIds : List String)
  | discardPending
deriving DecidableEq

/-- One iteration of the `_commit` table loop (repository.py lines 417-456):
full snapshot for a new table, `snap_only`, or a schema change; a patch for an
audited change; otherwise re-register the parent's descriptor unchanged. -/
def commitTableStep (env : CommitEnv) (snap_only split_changeset : Bool)
    (image_hash t : String) : CommitEffect :=
  match parentTableInfo env t with
  | none => CommitEffect.recordBase t image_hash
  | some ti =>
    if snap_only = true ∨ ti.table_schema ≠ currentSchemaOf env t then
      CommitEffect.recordBase t image_hash
    else if t ∈ env.changedTables then
      CommitEffect.recordPatch t image_hash split_changeset
    else
      CommitEffect.registerTable image_hash t ti.table_schema ti.objects

/-- `_commit` (repository.py lines 386-461): the effect sequence over all
working-schema tables, ending with `discard_pending_changes`. -/
def commit_tables (env : CommitEnv) (snap_only split_changeset : Bool)
    (image_hash : String) : List CommitEffect :=
  (env.allTables.map (commitTableStep env snap_only split_changeset image_hash)) ++
    [CommitEffect.discardPending]

/-- The table an effect concerns. -/
def effectTable : CommitEffect → Option String
  | CommitEffect.recordBase t _ => some t
  | CommitEffect.recordPatch t _ _ => some t
  | CommitEffect.registerTable _ t _ _ => some t
  | CommitEffect.discardPending => none

theorem effectTable_commitTableStep (env : CommitEnv) (s sp : Bool) (ih t : String) :
    effectTable (commitTableStep env s sp ih t) = some t := by
  unfold commitTableStep
  cases parentTableInfo env t with
  | none => rfl
  | some ti =>
    by_cases h1 : s = true ∨ ti.table_schema ≠ currentSchemaOf env t
    · simp [h1, effectTable]
    · by_cases h2 : t ∈ env.changedTables <;> simp [h1, h2, effectTable]

/-- C1: in `_commit`, a table that is new, or committed with `snap_only`, or
whose working schema differs from the parent descriptor's schema is recorded
as a base snapshot; otherwise a table in the audit's changed set is recorded
as a patch; otherwise the image re-registers the parent's descriptor with its
`object_ids` unchanged and no base or patch is recorded for that table. -/
theorem C1_commit_table_decision (env : CommitEnv) (snap_only split_changeset : Bool)
    (image_hash t : String) (ht : t ∈ env.allTables) :
    commitTableStep env snap_only split_changeset image_hash t ∈
      commit_tables env snap_only split_changeset image_hash ∧
    ((parentTableInfo env t = none ∨ snap_only = true ∨
        (∀ ti, parentTableInfo env t = some ti → ti.table_schema ≠ currentSchemaOf env t)) →
      commitTableStep env snap_only split_changeset image_hash t =
        CommitEffect.recordBase t image_hash) ∧
    (∀ ti, parentTableInfo env t = some ti → snap_only = false →
      ti.table_schema = currentSchemaOf env t → t ∈ env.changedTables →
      commitTableStep env snap_only split_changeset image_hash t =
        CommitEffect.recordPatch t image_hash split_changeset) ∧
    (∀ ti, parentTableInfo env t = some ti → snap_only = false →
      ti.table_schema = currentSchemaOf env t → t ∉ env.changedTables →
      commitTableStep env snap_only split_changeset image_hash t =
        CommitEffect.registerTable image_hash t ti.table_schema ti.objects ∧
      (∀ e ∈ commit_tables env snap_only split_changeset image_hash,
        effectTable e = some t →
        e = CommitEffect.registerTable image_hash t ti.table_schema ti.objects)) := by
  refine ⟨?_, ?_, ?_, ?_⟩
  · unfold commit_tables
    exact List.mem_append_left _ (List.mem_map.mpr ⟨t, ht, rfl⟩)
  · intro h
    unfold commitTableStep
    cases hp : parentTableInfo env t with
    | none => rfl
    | some ti =>
      rcases h with h | h | h
      · exact absurd hp (h ▸ (by simp))
      · simp [h]
      · simp [h ti hp]
  · intro ti hp hs hsch hch
    unfold commitTableStep
    rw [hp]
    simp [hs, hsch, hch]
  · intro ti hp hs hsch hch
    have hstep : commitTableStep env snap_only split_changeset image_hash t =
        CommitEffect.registerTable image_hash t ti.table_schema ti.objects := by
      unfold commitTableStep
      rw [hp]
      simp [hs, hsch, hch]
    refine ⟨hstep, ?_⟩
    intro e he het
    unfold commit_tables at he
    rcases List.mem_append.mp he with he | he
    · obtain ⟨t', ht', rfl⟩ := List.mem_map.mp he
      have : t' = t := by
        have := effectTable_commitTableStep env snap_only split_changeset image_hash t'
        rw [het] at this
        exact (Option.some.injEq _ _ ▸ this).symm
      rw [this, hstep]
    · simp only [List.mem_singleton] at he
      subst he
      simp [effectTable] at het

theorem C1_commit_table_decision_witness :
    ("t" ∈ (CommitEnv.mk (some [("t", ⟨[("k", "int")], ["o1"]⟩)]) ["t"] []
        [("t", [("k", "int")])]).allTables) ∧
    (commitTableStep (CommitEnv.mk (some [("t", ⟨[("k", "int")], ["o1"]⟩)]) ["t"] []
        [("t", [("k", "int")])]) false false "img" "t" ∈
      commit_tables (CommitEnv.mk (some [("t", ⟨[("k", "int")], ["o1"]⟩)]) ["t"] []
        [("t", [("k", "int")])]) false false "img") :=
  ⟨by decide,
   (C1_commit_table_decision (CommitEnv.mk (some [("t", ⟨[("k", "int")], ["o1"]⟩)]) ["t"] []
      [("t", [("k", "int")])]) false false "img" "t" (by decide)).1⟩

/-! ## Diff (repository.py: Repository.diff lines 920-974, table_exists_at 1019-1031) -/

/-- A materialized table row. -/
abbrev Row := List String

/-- What `diff` reads from a table at an image: its object list and its rows. -/
structure DiffTable where
  objects : List String
  rows : List Row
deriving DecidableEq

/-- An image as `diff` sees it. -/
structure DiffImage where
  image_hash : String
  tables : List (String × DiffTable)
deriving DecidableEq

/-- Repository state read by `diff`. -/
structure DiffRepoState where
  /-- image hash the HEAD tag points to, if checked out -/
  headHash : Option String
  /-- staging-area tables with their current rows -/
  working : List (String × List Row)
  /-- audit aggregate per staging table: (added, removed, updated) -/
  pendingAgg : List (String × (Nat × Nat × Nat))
deriving DecidableEq

/-- The union return type of `diff`. -/
inductive DiffResult where
  | boolRes (b : Bool)
  | aggRes (added removed updated : Nat)
  | listRes (changes : List (Bool × Row))
  | errRes (msg : String)
deriving DecidableEq

/-- `table_exists_at` (repository.py lines 1019-1031): staging-table existence
when `image` is none, descriptor existence otherwise. -/
def table_exists_at (st : DiffRepoState) (table_name : String) : Option DiffImage → Bool
  | none => (st.working.map Prod.fst).contains table_name
  | some img => (img.tables.map Prod.fst).contains table_name

/-- The rows of a table at an image, or at staging for `none`. -/
def rowsAt (st : DiffRepoState) (table_name : String) : Option DiffImage → List Row
  | none => (alookup st.working table_name).getD []
  | some img => ((alookup img.tables table_name).map DiffTable.rows).getD []

/-- Modelled from the spec: `slow_diff` (core/_common.py, which is not under
src/) materializes both sides and does a row-by-row compare, "returning either
the sequence of `(added?, row)` tuples or the aggregate counts" (spec 4.7); it
never returns a bare boolean. -/
def slow_diff (st : DiffRepoState) (table_name : String) (img1 img2 : Option DiffImage)
    (aggregate : Bool) : DiffResult :=
  let left := rowsAt st table_name img1
  let right := rowsAt st table_name img2
  let removed := (left.filter (fun r => !(right.contains r))).map (fun r => (false, r))
  let added := (right.filter (fun r => !(left.contains r))).map (fun r => (true, r))
  if aggregate then DiffResult.aggRes added.length removed.length 0
  else DiffResult.listRes (removed ++ added)

/-- Modelled from the spec: `aggregate_changes` applied to the audit facade's
pending changes for a staging table (core/_common.py, not under src/). -/
def pending_changes_aggregate (st : DiffRepoState) (table_name : String) : Nat × Nat × Nat :=
  (alookup st.pendingAgg table_name).getD (0, 0, 0)

/-- Python `image_1 == self.head` (both may be None). -/
def image_eq_head (st : DiffRepoState) : Option DiffImage → Bool
  | none => st.headHash.isNone
  | some img =>
    match st.headHash with
    | some h => img.image_hash == h
    | none => false

/-- Set-equality of two object-ID lists (Python `set(a) == set(b)`). -/
def sameSet (a b : List String) : Bool :=
  a.all (fun x => b.contains x) && b.all (fun x => a.contains x)

def aggOf (p : Nat × Nat × Nat) : DiffResult := DiffResult.aggRes p.1 p.2.1 p.2.2

/-- `Repository.diff` (repository.py lines 920-974). -/
def diff (st : DiffRepoState) (table_name : String) (image_1 image_2 : Option DiffImage)
    (aggregate : Bool) : DiffResult :=
  if !(table_exists_at st table_name image_1) then DiffResult.boolRes true
  else if !(table_exists_at st table_name image_2) then DiffResult.boolRes false
  else if image_eq_head st image_1 && image_2.isNone && aggregate then
    aggOf (pending_changes_aggregate st table_name)
  else
    match image_2 with
    | some i2 =>
      match image_1 with
      | none => DiffResult.errRes "AttributeError"
      | some i1 =>
        match alookup i1.tables table_name, alookup i2.tables table_name with
        | some t1, some t2 =>
          if sameSet t1.objects t2.objects then
            (if aggregate then DiffResult.aggRes 0 0 0 else DiffResult.listRes [])
          else slow_diff st table_name image_1 image_2 aggregate
        | _, _ => DiffResult.errRes "TableNotFound"
    | none => slow_diff st table_name image_1 image_2 aggregate

theorem slow_diff_not_bool (st : DiffRepoState) (table_name : String)
    (img1 img2 : Option DiffImage) (agg b : Bool) :
    slow_diff st table_name img1 img2 agg ≠ DiffResult.boolRes b := by
  unfold slow_diff
  by_cases h : agg = true <;> simp [h]

/-- C2 (amended): `diff` returns the bare boolean true exactly when the table
is absent in the first image (whether or not it is present in the second), and
the bare boolean false exactly when the table is present in the first image
and absent in the second; these are the only conditions under which `diff`
returns a bare boolean. -/
theorem C2_diff_bool_characterization (st : DiffRepoState) (table_name : String)
    (img1 img2 : Option DiffImage) (aggregate : Bool) :
    (diff st table_name img1 img2 aggregate = DiffResult.boolRes true ↔
      table_exists_at st table_name img1 = false) ∧
    (diff st table_name img1 img2 aggregate = DiffResult.boolRes false ↔
      table_exists_at st table_name img1 = true ∧
        table_exists_at st table_name img2 = false) := by
  cases h1 : table_exists_at st table_name img1 with
  | false => simp [diff, h1]
  | true =>
    cases h2 : table_exists_at st table_name img2 with
    | false => simp [diff, h1, h2]
    | true =>
      have hnb : ∀ b, diff st table_name img1 img2 aggregate ≠ DiffResult.boolRes b := by
        intro b hcon
        unfold diff at hcon
        rw [h1, h2] at hcon
        simp only [Bool.not_true, Bool.false_eq_true, if_false] at hcon
        split at hcon
        all_goals try split at hcon
        all_goals try split at hcon
        all_goals try split at hcon
        all_goals try split at hcon
        all_goals try split at hcon
        all_goals first
          | exact slow_diff_not_bool _ _ _ _ _ _ hcon
          | simp [aggOf] at hcon
      constructor
      · simp [hnb, h1]
      · simp [hnb, h1, h2]

def c2Repo : DiffRepoState := { headHash := none, working := [], pendingAgg := [] }

def c2ImgA : DiffImage := { image_hash := "aa", tables := [] }

def c2ImgB : DiffImage := { image_hash := "bb", tables := [] }

/-- C2 counterexample: with table "t" absent in BOTH images, `diff` returns
the bare boolean true although the table is not present in the second image —
refuting "true when the table is absent in the first image but present in the
second ... these are the only conditions under which diff returns a bare
boolean". -/
theorem C2_diff_counterexample :
    diff c2Repo "t" (some c2ImgA) (some c2ImgB) false = DiffResult.boolRes true ∧
    table_exists_at c2Repo "t" (some c2ImgB) = false := by
  constructor <;> rfl

/-! ## Transient materialization (repository.py: materialized_table, lines 269-294) -/

def SPLITGRAPH_META_SCHEMA : String := "splitgraph_meta"

/-- Physical tables present on the object engine, as (schema, table) pairs. -/
structure ObjEngineState where
  tables : List (String × String)
deriving DecidableEq

def create_table (st : ObjEngineState) (schema t : String) : ObjEngineState :=
  { st with tables := st.tables ++ [(schema, t)] }

def delete_table (st : ObjEngineState) (schema t : String) : ObjEngineState :=
  { st with tables := st.tables.filter (fun p => p ≠ (schema, t)) }

/-- Images visible to `materialized_table`: image hash → its table names. -/
structure MatEnv where
  images : List (String × List String)
deriving DecidableEq

/-- `Repository.materialized_table` (repository.py lines 269-294) as a
CPS-style context manager: `body` is the with-block, receiving the yielded
(schema, table) handle and the engine state, and returning a result (ok or a
raised exception) plus the state it leaves behind. With an image hash the
table is materialized under the fresh `new_id` in the metadata schema and
the temporary table is dropped in the `finally` block on every exit path;
with no image hash the staging schema and original name are yielded and
nothing is created or dropped. -/
def materialized_table {α : Type} (repoSchema : String) (env : MatEnv) (st : ObjEngineState)
    (table_name : String) (image_hash : Option String) (new_id : String)
    (body : String × String → ObjEngineState → Except String α × ObjEngineState) :
    Except String α × ObjEngineState :=
  match image_hash with
  | none => body (repoSchema, table_name) st
  | some ih =>
    match alookup env.images ih with
    | none => (Except.error "ImageNotFoundError", st)
    | some tbls =>
      if table_name ∈ tbls then
        let res := body (SPLITGRAPH_META_SCHEMA, new_id)
          (create_table st SPLITGRAPH_META_SCHEMA new_id)
        (res.1, delete_table res.2 SPLITGRAPH_META_SCHEMA new_id)
      else (Except.error "TableNotFoundError", st)

/-- C7: with an image hash, `materialized_table` materializes into a fresh
temporary table in the metadata schema and that table is gone from the engine
state when the context exits — whether the body returned normally or raised,
the body's outcome being passed through unchanged; with no image hash it
yields the working schema and the original table name, performing no
materialization and no cleanup. -/
theorem C7_materialized_table {α : Type} (repoSchema : String) (env : MatEnv)
    (st : ObjEngineState) (table_name : String) (image_hash : Option String) (new_id : String)
    (body : String × String → ObjEngineState → Except String α × ObjEngineState) :
    (image_hash = none →
      materialized_table repoSchema env st table_name image_hash new_id body =
        body (repoSchema, table_name) st) ∧
    (∀ ih tbls, image_hash = some ih → alookup env.images ih = some tbls →
      table_name ∈ tbls →
      ((SPLITGRAPH_META_SCHEMA, new_id) ∉
        (materialized_table repoSchema env st table_name image_hash new_id body).2.tables) ∧
      (materialized_table repoSchema env st table_name image_hash new_id body).1 =
        (body (SPLITGRAPH_META_SCHEMA, new_id)
          (create_table st SPLITGRAPH_META_SCHEMA new_id)).1) := by
  constructor
  · intro h
    subst h
    rfl
  · intro ih tbls hih htb hmem
    subst hih
    simp only [materialized_table]
    rw [htb]
    simp only [hmem, if_true]
    constructor
    · simp [delete_table, List.mem_filter]
    · trivial

theorem C7_materialized_table_witness :
    ((SPLITGRAPH_META_SCHEMA, "oid1") ∉
      (materialized_table "ns/r" (MatEnv.mk [("h1", ["t"])]) (ObjEngineState.mk [("ns/r", "t")])
        "t" (some "h1") "oid1"
        (fun h s => (Except.ok h, s))).2.tables) ∧
    ((materialized_table "ns/r" (MatEnv.mk [("h1", ["t"])]) (ObjEngineState.mk [("ns/r", "t")])
        "t" (some "h1") "oid1"
        (fun h s => (Except.ok h, s))).1 =
      ((fun (h : String × String) (s : ObjEngineState) => ((Except.ok h : Except String (String × String)), s))
        (SPLITGRAPH_META_SCHEMA, "oid1")
        (create_table (ObjEngineState.mk [("ns/r", "t")]) SPLITGRAPH_META_SCHEMA "oid1")).1) :=
  (C7_materialized_table "ns/r" (MatEnv.mk [("h1", ["t"])]) (ObjEngineState.mk [("ns/r", "t")])
    "t" (some "h1") "oid1" (fun h s => (Except.ok h, s))).2 "h1" ["t"] rfl rfl (by decide)

/-! ## Closest-base resolution
(meta_handler/images.py: get_closest_parent_image_object, lines 22-49) -/

/-- A row of `get_full_object_tree()`: (object_id, parent_id, format). -/
abbrev ObjectTreeRow := String × String × String

/-- The defaultdict entry list for an object: its (parent_id, format) rows in
load order (images.py lines 34-36); empty for an object with no rows. -/
def treeEntries (tree : List ObjectTreeRow) (oid : String) : List (String × String) :=
  (tree.filter (fun r => r.1 == oid)).map (fun r => (r.2.1, r.2.2))

/-- Possible outcomes of closest-base resolution. -/
inductive ClosestResult where
  | found (object_id : String) (path : List String)
  | malformed
  | indexError
  | outOfFuel
deriving DecidableEq

/-- The while-loop of `get_closest_parent_image_object` (images.py lines
38-46), with explicit fuel: the Python loop runs forever when an object has no
recorded parent rows (the for-loop body never executes) or when the DIFF chain
is cyclic. Only the first parent row of an object is ever inspected (the
for-loop returns or breaks on its first iteration); a parent with no rows of
its own raises IndexError at `object_tree[parent_id][0]`. -/
def closestLoop (tree : List ObjectTreeRow) : Nat → String → List String → ClosestResult
  | 0, _, _ => ClosestResult.outOfFuel
  | fuel + 1, object_id, path =>
    match treeEntries tree object_id with
    | [] => closestLoop tree fuel object_id (path ++ [object_id])
    | (parent_id, _) :: _ =>
      match treeEntries tree parent_id with
      | [] => ClosestResult.indexError
      | (_, pfmt) :: _ =>
        if pfmt = "SNAP" then ClosestResult.found parent_id (path ++ [object_id])
        else closestLoop tree fuel parent_id (path ++ [object_id])

/-- `get_closest_parent_image_object` (images.py lines 22-49). `snapLookup`
and `diffLookup` are the results of `get_object_for_table(repository, table,
image, object_format)` for formats SNAP and DIFF respectively. -/
def get_closest_parent_image_object (snapLookup diffLookup : Option String)
    (tree : List ObjectTreeRow) (fuel : Nat) : ClosestResult :=
  match snapLookup with
  | some oid => ClosestResult.found oid []
  | none =>
    match diffLookup with
    | none => ClosestResult.malformed
    | some oid => closestLoop tree fuel oid []

/-- The ancestor walk the loop performs: follow each object's first recorded
parent while that parent's first recorded format is not SNAP. `WalksTo tree
oid (snap, path)` says the walk from `oid` reaches the SNAP-formatted object
`snap`, traversing exactly the non-SNAP objects in `path`. -/
inductive WalksTo (tree : List ObjectTreeRow) : String → String × List String → Prop where
  | here : ∀ oid parent_id f rest p2 rest2,
      treeEntries tree oid = (parent_id, f) :: rest →
      treeEntries tree parent_id = (p2, "SNAP") :: rest2 →
      WalksTo tree oid (parent_id, [oid])
  | there : ∀ oid parent_id f rest p2 pfmt rest2 r,
      treeEntries tree oid = (parent_id, f) :: rest →
      treeEntries tree parent_id = (p2, pfmt) :: rest2 →
      pfmt ≠ "SNAP" →
      WalksTo tree parent_id r →
      WalksTo tree oid (r.1, oid :: r.2)

theorem WalksTo_entries_ne_nil {tree : List ObjectTreeRow} {oid : String}
    {r : String × List String} (h : WalksTo tree oid r) : treeEntries tree oid ≠ [] := by
  intro hc
  cases h <;> simp_all

theorem closestLoop_found (tree : List ObjectTreeRow) (fuel : Nat) :
    ∀ (oid : String) (path : List String) (p : String) (fullpath : List String),
    closestLoop tree fuel oid path = ClosestResult.found p fullpath →
    ∃ tail, fullpath = path ++ tail ∧ WalksTo tree oid (p, tail) := by
  induction fuel with
  | zero =>
    intro oid path p fp h
    simp [closestLoop] at h
  | succ n ih =>
    intro oid path p fp h
    rw [closestLoop] at h
    cases he : treeEntries tree oid with
    | nil =>
      simp only [he] at h
      obtain ⟨tail, htail, hwalk⟩ := ih _ _ _ _ h
      exact absurd he (WalksTo_entries_ne_nil hwalk)
    | cons hd tl =>
      obtain ⟨parent_id, f⟩ := hd
      simp only [he] at h
      cases he2 : treeEntries tree parent_id with
      | nil =>
        simp only [he2] at h
        exact ClosestResult.noConfusion h
      | cons hd2 tl2 =>
        obtain ⟨p2, pfmt⟩ := hd2
        simp only [he2] at h
        by_cases hfmt : pfmt = "SNAP"
        · subst hfmt
          rw [if_pos rfl] at h
          injection h with h1 h2
          subst h1
          subst h2
          exact ⟨[oid], rfl, WalksTo.here oid parent_id f tl p2 tl2 he he2⟩
        · rw [if_neg hfmt] at h
          obtain ⟨tail, htail, hwalk⟩ := ih _ _ _ _ h
          subst htail
          exact ⟨oid :: tail, by simp,
            WalksTo.there oid parent_id f tl p2 pfmt tl2 (p, tail) he he2 hfmt hwalk⟩

theorem closestLoop_ne_malformed (tree : List ObjectTreeRow) (fuel : Nat) :
    ∀ (oid : String) (path : List String),
    closestLoop tree fuel oid path ≠ ClosestResult.malformed := by
  induction fuel with
  | zero => intro oid path; simp [closestLoop]
  | succ n ih =>
    intro oid path
    rw [closestLoop]
    cases he : treeEntries tree oid with
    | nil =>
      simp only [he]
      exact ih _ _
    | cons hd tl =>
      obtain ⟨parent_id, f⟩ := hd
      simp only [he]
      cases he2 : treeEntries tree parent_id with
      | nil => simp
      | cons hd2 tl2 =>
        obtain ⟨p2, pfmt⟩ := hd2
        simp only []
        by_cases hfmt : pfmt = "SNAP"
        · simp [hfmt]
        · rw [if_neg hfmt]
          exact ih _ _

/-- C6 (amended): closest-base resolution returns `(snap, [])` when the table
has a SNAP object; otherwise, when a DIFF object exists and the loop produces
a result, that result is a SNAP-formatted ancestor reached by following
first-parent pointers together with the path of non-SNAP objects traversed;
the malformed-object-tree error is raised exactly when the table has neither a
SNAP nor a DIFF object. (A dangling parent reference instead raises an
IndexError and a parentless or cyclic chain never terminates; see the
counterexample.) -/
theorem C6_closest_parent_resolution (snapLookup diffLookup : Option String)
    (tree : List ObjectTreeRow) (fuel : Nat) :
    (∀ s, snapLookup = some s →
      get_closest_parent_image_object snapLookup diffLookup tree fuel =
        ClosestResult.found s []) ∧
    (get_closest_parent_image_object snapLookup diffLookup tree fuel =
        ClosestResult.malformed ↔ snapLookup = none ∧ diffLookup = none) ∧
    (∀ d p path, snapLookup = none → diffLookup = some d →
      get_closest_parent_image_object snapLookup diffLookup tree fuel =
        ClosestResult.found p path →
      WalksTo tree d (p, path)) := by
  refine ⟨?_, ?_, ?_⟩
  · intro s hs
    subst hs
    rfl
  · cases snapLookup with
    | some s => simp [get_closest_parent_image_object]
    | none =>
      cases diffLookup with
      | none => simp [get_closest_parent_image_object]
      | some d =>
        simp only [get_closest_parent_image_object]
        constructor
        · intro h
          exact absurd h (closestLoop_ne_malformed _ _ _ _)
        · intro h
          exact absurd h.2 (by simp)
  · intro d p path hs hd hres
    subst hs
    subst hd
    simp only [get_closest_parent_image_object] at hres
    obtain ⟨tail, htail, hwalk⟩ := closestLoop_found tree fuel d [] p path hres
    simpa [htail] using hwalk

theorem C6_closest_parent_resolution_witness :
    get_closest_parent_image_object (some "s0") none [] 3 = ClosestResult.found "s0" [] :=
  (C6_closest_parent_resolution (some "s0") none [] 3).1 "s0" rfl

/-- C6 counterexample: with no SNAP object, a DIFF object "a", and an object
tree in which "a"'s parent "b" has no rows of its own, no SNAP is reachable —
yet the function fails with IndexError at `object_tree[parent_id][0]`
(modelled as `indexError`), not with the malformed-object-tree
SplitGraphException that the claim requires whenever no BASE is reachable. -/
theorem C6_closest_parent_counterexample :
    get_closest_parent_image_object none (some "a") [("a", "b", "DIFF")] 5 =
      ClosestResult.indexError ∧
    get_closest_parent_image_object none (some "a") [("a", "b", "DIFF")] 5 ≠
      ClosestResult.malformed := by
  constructor
  · rfl
  · decide

/-! ## Commit registration (repository.py: Repository.commit, lines 329-384) -/

/-- The lowercase hex digit of a value below 16 (Python `x` formatting). -/
def hexDigit (n : Nat) : Char :=
  if n < 10 then Char.ofNat (48 + n) else Char.ofNat (87 + n)

/-- Fixed-width lowercase hex rendering: `toHexFixed 64 r` models Python's
64-wide zero-padded `x` format of `r = getrandbits(256)`, which is always
below `2 ^ 256`. -/
def toHexFixed : Nat → Nat → List Char
  | 0, _ => []
  | w + 1, n => toHexFixed w (n / 16) ++ [hexDigit (n % 16)]

/-- The image-hash literal `commit` builds for a random 256-bit value
(repository.py line 368). -/
def format_064x (r : Nat) : String := String.mk (toHexFixed 64 r)

/-- Whether a character is a lowercase hexadecimal digit. -/
def isLowerHexDigit (c : Char) : Bool :=
  ('0' ≤ c && c ≤ '9') || ('a' ≤ c && c ≤ 'f')

theorem hexDigit_mem (m : Nat) (h : m < 16) : isLowerHexDigit (hexDigit m) = true := by
  have hall : ∀ m' < 16, isLowerHexDigit (hexDigit m') = true := by decide
  exact hall m h

theorem toHexFixed_length (w n : Nat) : (toHexFixed w n).length = w := by
  induction w generalizing n with
  | zero => rfl
  | succ k ih => simp [toHexFixed, ih]

theorem toHexFixed_mem (w n : Nat) : ∀ c ∈ toHexFixed w n, isLowerHexDigit c = true := by
  induction w generalizing n with
  | zero => simp [toHexFixed]
  | succ k ih =>
    intro c hc
    simp only [toHexFixed, List.mem_append, List.mem_singleton] at hc
    rcases hc with hc | hc
    · exact ih _ _ hc
    · subst hc
      exact hexDigit_mem _ (Nat.mod_lt _ (by norm_num))

/-- Tag upsert (the tags table is UNIQUE on (namespace, repository, tag)). -/
def setTag : List (String × String) → String → String → List (String × String)
  | [], t, ih => [(t, ih)]
  | (t0, h0) :: rest, t, ih =>
    if t0 = t then (t0, ih) :: rest else (t0, h0) :: setTag rest t ih

theorem alookup_setTag_self (l : List (String × String)) (t ih : String) :
    alookup (setTag l t ih) t = some ih := by
  induction l with
  | nil => simp [setTag, alookup]
  | cons p rest iha =>
    obtain ⟨t0, h0⟩ := p
    by_cases h : t0 = t
    · simp [setTag, alookup, h]
    · simp [setTag, alookup, h, iha]

theorem alookup_setTag_other (l : List (String × String)) (t t' ih : String)
    (h : t' ≠ t) : alookup (setTag l t' ih) t = alookup l t := by
  induction l with
  | nil => simp [setTag, alookup, h]
  | cons p rest iha =>
    obtain ⟨t0, h0⟩ := p
    by_cases h0' : t0 = t'
    · subst h0'
      simp [setTag, alookup, h]
    · simp only [setTag, h0', if_false]
      by_cases h1 : t0 = t
      · simp [alookup, h1]
      · simp [alookup, h1, iha]

/-- Image and tag metadata touched by `commit`. -/
structure CommitState where
  /-- (image_hash, parent_id) rows of the images table -/
  images : List (String × Option String)
  /-- (tag, image_hash) rows for this repository -/
  tags : List (String × String)
deriving DecidableEq

/-- Modelled from the spec: `set_head` (core/_common.py, not under src/)
"atomically move HEAD to the new image" — upserts the reserved HEAD tag. -/
def CommitState.set_head (st : CommitState) (ih : String) : CommitState :=
  { st with tags := setTag st.tags "HEAD" ih }

/-- Modelled from the spec: `ImageManager.add(parent, hash, ...)` (spec 4.4;
the core ImageManager is not under src/, but this matches `add_new_image` in
meta_handler/images.py lines 52-57): inserts an image row with the given
parent hash. -/
def CommitState.images_add (st : CommitState) (parent : Option String)
    (image_hash : String) : CommitState :=
  { st with images := st.images ++ [(image_hash, parent)] }

/-- `Repository.commit` (repository.py lines 329-384): read HEAD (null before
a first commit), pick the image hash — the caller's or the rendering of the
random 256-bit `rand` —, register the image with the HEAD hash as parent, run
the `_commit` table loop (modelled separately as `commit_tables`), and move
HEAD to the new image. -/
def Repository_commit (st : CommitState) (image_hash : Option String) (rand : Nat) :
    CommitState × String :=
  let head := alookup st.tags "HEAD"
  let ih :=
    match image_hash with
    | some h => h
    | none => format_064x rand
  let st1 := st.images_add head ih
  let st2 := st1.set_head ih
  (st2, ih)

/-- C4: `commit` registers the new image with parent equal to the hash of the
current HEAD image (null on a first commit); the new image's hash is the
caller-supplied one when given, and otherwise the 64-character lowercase
hexadecimal rendering of the random 256-bit value; and afterwards the HEAD
tag points to the new image. -/
theorem C4_commit_registration (st : CommitState) (image_hash : Option String) (rand : Nat)
    (_hr : rand < 2 ^ 256) :
    ((Repository_commit st image_hash rand).2, alookup st.tags "HEAD") ∈
      (Repository_commit st image_hash rand).1.images ∧
    alookup (Repository_commit st image_hash rand).1.tags "HEAD" =
      some (Repository_commit st image_hash rand).2 ∧
    (∀ h, image_hash = some h → (Repository_commit st image_hash rand).2 = h) ∧
    (image_hash = none →
      (Repository_commit st image_hash rand).2 = format_064x rand ∧
      (Repository_commit st image_hash rand).2.length = 64 ∧
      ∀ c ∈ (Repository_commit st image_hash rand).2.data, isLowerHexDigit c = true) := by
  refine ⟨?_, ?_, ?_, ?_⟩
  · simp [Repository_commit, CommitState.images_add, CommitState.set_head]
  · simp [Repository_commit, CommitState.images_add, CommitState.set_head, alookup_setTag_self]
  · intro h hh
    subst hh
    rfl
  · intro hh
    subst hh
    refine ⟨rfl, ?_, ?_⟩
    · show (String.mk (toHexFixed 64 rand)).length = 64
      simp [String.length, toHexFixed_length]
    · intro c hc
      exact toHexFixed_mem 64 rand c hc

theorem C4_commit_registration_witness :
    (5 < 2 ^ 256) ∧
    alookup (Repository_commit (CommitState.mk [] []) none 5).1.tags "HEAD" =
      some (Repository_commit (CommitState.mk [] []) none 5).2 :=
  ⟨by norm_num, (C4_commit_registration (CommitState.mk [] []) none 5 (by norm_num)).2.1⟩

/-! ## The sync engine (repository.py: _sync lines 1034-1127, set_tags lines
497-506, rollback_engines / commit_engines lines 119-133) -/

/-- An image row transferred by sync. -/
structure SyncImage where
  image_hash : String
  parent_id : Option String
deriving DecidableEq

/-- The metadata `gather_sync_metadata` returns. -/
structure SyncMeta where
  new_images : List SyncImage
  /-- (image_hash, table_name, object_ids) descriptor rows -/
  table_meta : List (String × String × List String)
  /-- (object_id, location) external-location rows -/
  object_locations : List (String × String)
  /-- ids of the gathered object-metadata records (`object_meta` keys/values) -/
  object_meta : List String
  /-- tag → image hash map received from the source (HEAD may map to none) -/
  tags : List (String × Option String)
deriving DecidableEq

/-- One end's metadata and object-store contents. -/
structure MetaState where
  images : List SyncImage
  objects : List String
  locations : List (String × String)
  tables : List (String × String × List String)
  tags : List (String × String)
  /-- locally stored object payloads (what `download_objects` fetches) -/
  payloads : List String
deriving DecidableEq

/-- A repository end's transactional store: `base` is the committed state,
`cur` the in-transaction view. The repository's `engine` and `object_engine`
are modelled as one store: `rollback_engines` (repository.py lines 119-125)
rolls back both underlying engines, `commit_engines` (lines 127-133) commits
both. -/
structure EngineTx where
  base : MetaState
  cur : MetaState
deriving DecidableEq

def EngineTx.rollback_engines (e : EngineTx) : EngineTx := { base := e.base, cur := e.base }

def EngineTx.commit_engines (e : EngineTx) : EngineTx := { base := e.cur, cur := e.cur }

/-- Modelled from the spec: `set_head(target, None)` (core/_common.py, not
under src/) leaves the target's HEAD unset — "Don't check anything out, keep
the repo bare" (repository.py line 1094, spec: "leave HEAD unset"). -/
def MetaState.set_head_none (st : MetaState) : MetaState :=
  { st with tags := st.tags.filter (fun p => p.1 ≠ "HEAD") }

/-- `Repository.set_tags` (repository.py lines 497-506): every entry except
HEAD is written; a non-HEAD entry with no image hash trips the assert. -/
def MetaState.set_tags (st : MetaState) : List (String × Option String) → Except String MetaState
  | [] => Except.ok st
  | (tag, imgId) :: rest =>
    if tag ≠ "HEAD" then
      match imgId with
      | some ihash => MetaState.set_tags { st with tags := setTag st.tags tag ihash } rest
      | none => Except.error "AssertionError"
    else MetaState.set_tags st rest

/-- Failure injection for the engine calls inside `_sync`'s try-block: any of
them may raise; `failAt = some i` makes the call at position `i` raise. -/
def stepCheck (failAt : Option Nat) (i : Nat) : Except String Unit :=
  if failAt = some i then Except.error (toString i) else Except.ok ()

/-- The environment `_sync` runs in: the outcome of `gather_sync_metadata`
(a gathered bundle or the exception it raised), the locations
`upload_objects` returns, and the injected failure point. -/
structure SyncEnv where
  gather : Except String SyncMeta
  new_uploads : List (String × String)
  failAt : Option Nat

/-- The download branch of `_sync` (repository.py lines 1081-1095):
register object metadata, register object locations, optionally fetch all
payloads, and leave the target bare by unsetting HEAD. -/
def syncDownloadBranch (env : SyncEnv) (download_all : Bool) (meta : SyncMeta)
    (t s : MetaState) : Except String (MetaState × MetaState) :=
  match stepCheck env.failAt 2 with
  | Except.error e => Except.error e
  | Except.ok _ =>
    let t2 := { t with objects := t.objects ++ meta.object_meta }
    match stepCheck env.failAt 3 with
    | Except.error e => Except.error e
    | Except.ok _ =>
      let t3 := { t2 with locations := t2.locations ++ meta.object_locations }
      match
        (if download_all then
          match stepCheck env.failAt 4 with
          | Except.error e => Except.error e
          | Except.ok _ =>
            Except.ok { t3 with payloads := t3.payloads ++ meta.object_meta }
        else Except.ok t3) with
      | Except.error e => Except.error e
      | Except.ok t4 =>
        match stepCheck env.failAt 5 with
        | Except.error e => Except.error e
        | Except.ok _ => Except.ok (t4.set_head_none, s)

/-- The upload branch of `_sync` (repository.py lines 1096-1107): the source
uploads payloads producing `new_uploads`, then the target registers object
metadata, then locations (gathered plus new uploads), then the source records
the new upload locations. -/
def syncUploadBranch (env : SyncEnv) (meta : SyncMeta) (t s : MetaState) :
    Except String (MetaState × MetaState) :=
  match stepCheck env.failAt 2 with
  | Except.error e => Except.error e
  | Except.ok _ =>
    match stepCheck env.failAt 3 with
    | Except.error e => Except.error e
    | Except.ok _ =>
      let t2 := { t with objects := t.objects ++ meta.object_meta }
      match stepCheck env.failAt 4 with
      | Except.error e => Except.error e
      | Except.ok _ =>
        let t3 := { t2 with
          locations := t2.locations ++ meta.object_locations ++ env.new_uploads }
        match stepCheck env.failAt 5 with
        | Except.error e => Except.error e
        | Except.ok _ =>
          Except.ok (t3, { s with locations := s.locations ++ env.new_uploads })

/-- The tail of `_sync`'s try-block (repository.py lines 1109-1111): register
table descriptors on the target, then set the received tags. -/
def syncFinish (env : SyncEnv) (meta : SyncMeta) (ts : MetaState × MetaState) :
    Except String (MetaState × MetaState) :=
  match stepCheck env.failAt 6 with
  | Except.error e => Except.error e
  | Except.ok _ =>
    match MetaState.set_tags { ts.1 with tables := ts.1.tables ++ meta.table_meta } meta.tags with
    | Except.error e => Except.error e
    | Except.ok t2 => Except.ok (t2, ts.2)

/-- Steps 3-7 of `_sync` (repository.py lines 1071-1111) for a non-empty
new-image set: register the new images on the target, then run the download
or upload branch, then tables and tags. -/
def syncSteps (env : SyncEnv) (download download_all : Bool) (meta : SyncMeta)
    (t s : MetaState) : Except String (MetaState × MetaState) :=
  match stepCheck env.failAt 1 with
  | Except.error e => Except.error e
  | Except.ok _ =>
    match
      (if download then
        syncDownloadBranch env download_all meta
          { t with images := t.images ++ meta.new_images } s
      else
        syncUploadBranch env meta { t with images := t.images ++ meta.new_images } s) with
    | Except.error e => Except.error e
    | Except.ok ts => syncFinish env meta ts

/-- `_sync` (repository.py lines 1034-1127): gather, short-circuit on an
empty new-image set, run the try-block steps; on any exception roll back both
ends and re-raise, on success commit both ends. -/
def _sync (env : SyncEnv) (download download_all : Bool) (target source : EngineTx) :
    Except String Unit × EngineTx × EngineTx :=
  match env.gather with
  | Except.error e => (Except.error e, target.rollback_engines, source.rollback_engines)
  | Except.ok meta =>
    if meta.new_images = [] then (Except.ok (), target, source)
    else
      match syncSteps env download download_all meta target.cur source.cur with
      | Except.error e => (Except.error e, target.rollback_engines, source.rollback_engines)
      | Except.ok ts =>
        (Except.ok (),
          EngineTx.commit_engines { target with cur := ts.1 },
          EngineTx.commit_engines { source with cur := ts.2 })

/-- C3 (amended): if any step of `_sync` raises an exception after metadata
gathering begins, the transactions on both the target's and the source's
engines are rolled back and the exception is re-raised, so neither end
retains any of the new images, objects, tables or tags; if every step
succeeds and at least one new image was gathered, the transactions on both
ends are committed. (When gathering finds no new images `_sync` returns
successfully without committing either end — see the counterexample.) -/
theorem C3_sync_transactionality (env : SyncEnv) (download download_all : Bool)
    (target source : EngineTx) :
    (∀ e, (_sync env download download_all target source).1 = Except.error e →
      (_sync env download download_all target source).2.1.cur = target.base ∧
      (_sync env download download_all target source).2.1.base = target.base ∧
      (_sync env download download_all target source).2.2.cur = source.base ∧
      (_sync env download download_all target source).2.2.base = source.base) ∧
    (∀ meta, env.gather = Except.ok meta → meta.new_images ≠ [] →
      (_sync env download download_all target source).1 = Except.ok () →
      ((_sync env download download_all target source).2.1.base =
        (_sync env download download_all target source).2.1.cur) ∧
      ((_sync env download download_all target source).2.2.base =
        (_sync env download download_all target source).2.2.cur)) ∧
    (∀ meta, env.gather = Except.ok meta → meta.new_images = [] →
      _sync env download download_all target source = (Except.ok (), target, source)) := by
  refine ⟨?_, ?_, ?_⟩
  · intro e herr
    cases hg : env.gather with
    | error e2 =>
      simp only [_sync, hg]
      exact ⟨rfl, rfl, rfl, rfl⟩
    | ok meta =>
      by_cases hemp : meta.new_images = []
      · simp [_sync, hg, hemp] at herr
      · simp only [_sync, hg, if_neg hemp] at herr ⊢
        cases hs : syncSteps env download download_all meta target.cur source.cur with
        | error e2 =>
          simp only [hs]
          exact ⟨rfl, rfl, rfl, rfl⟩
        | ok ts =>
          simp only [hs] at herr
          exact absurd herr (by simp)
  · intro meta hg hne hok
    simp only [_sync, hg, if_neg hne] at hok ⊢
    cases hs : syncSteps env download download_all meta target.cur source.cur with
    | error e =>
      simp only [hs] at hok
      exact absurd hok (by simp)
    | ok ts =>
      simp only [hs]
      exact ⟨rfl, rfl⟩
  · intro meta hg hemp
    simp only [_sync, hg, if_pos hemp]

def c3Empty : MetaState :=
  { images := [], objects := [], locations := [], tables := [], tags := [], payloads := [] }

def c3Pending : MetaState :=
  { images := [SyncImage.mk "img1" none], objects := [], locations := [], tables := [],
    tags := [], payloads := [] }

def c3MetaEmpty : SyncMeta :=
  { new_images := [], table_meta := [], object_locations := [], object_meta := [], tags := [] }

def c3EnvEmpty : SyncEnv :=
  { gather := Except.ok c3MetaEmpty, new_uploads := [], failAt := none }

/-- C3 counterexample: when gathering finds no new images, `_sync` returns
successfully but commits neither end. Here the target engine's transaction
holds an uncommitted image row, every step of `_sync` succeeds, and the row
is still uncommitted afterwards (base ≠ cur) — refuting "if every step
succeeds, the transactions on both ends are committed". -/
theorem C3_sync_counterexample :
    (_sync c3EnvEmpty true false (EngineTx.mk c3Empty c3Pending)
      (EngineTx.mk c3Empty c3Empty)).1 = Except.ok () ∧
    (_sync c3EnvEmpty true false (EngineTx.mk c3Empty c3Pending)
        (EngineTx.mk c3Empty c3Empty)).2.1.base ≠
      (_sync c3EnvEmpty true false (EngineTx.mk c3Empty c3Pending)
        (EngineTx.mk c3Empty c3Empty)).2.1.cur := by
  constructor
  · rfl
  · decide

def c3MetaOne : SyncMeta :=
  { new_images := [SyncImage.mk "img2" none], table_meta := [], object_locations := [],
    object_meta := [], tags := [] }

def c3EnvOne : SyncEnv :=
  { gather := Except.ok c3MetaOne, new_uploads := [], failAt := none }

theorem C3_sync_transactionality_witness :
    ((_sync c3EnvOne true false (EngineTx.mk c3Empty c3Empty)
        (EngineTx.mk c3Empty c3Empty)).2.1.base =
      (_sync c3EnvOne true false (EngineTx.mk c3Empty c3Empty)
        (EngineTx.mk c3Empty c3Empty)).2.1.cur) ∧
    ((_sync c3EnvOne true false (EngineTx.mk c3Empty c3Empty)
        (EngineTx.mk c3Empty c3Empty)).2.2.base =
      (_sync c3EnvOne true false (EngineTx.mk c3Empty c3Empty)
        (EngineTx.mk c3Empty c3Empty)).2.2.cur) :=
  (C3_sync_transactionality c3EnvOne true false (EngineTx.mk c3Empty c3Empty)
    (EngineTx.mk c3Empty c3Empty)).2.1 c3MetaOne rfl (by decide) rfl

theorem alookup_filter_head (l : List (String × String)) :
    alookup (l.filter (fun p => p.1 ≠ "HEAD")) "HEAD" = none := by
  induction l with
  | nil => rfl
  | cons p rest ih =>
    obtain ⟨t0, h0⟩ := p
    rw [List.filter_cons]
    by_cases h : t0 = "HEAD"
    · subst h
      rw [if_neg (by simp)]
      exact ih
    · rw [if_pos (by simp [h])]
      simp only [alookup]
      rw [if_neg h]
      exact ih

theorem set_tags_ok_head (tagmap : List (String × Option String)) :
    ∀ (st st' : MetaState), MetaState.set_tags st tagmap = Except.ok st' →
      alookup st'.tags "HEAD" = alookup st.tags "HEAD" := by
  induction tagmap with
  | nil =>
    intro st st' h
    simp only [MetaState.set_tags] at h
    injection h with h
    subst h
    rfl
  | cons p rest ih =>
    obtain ⟨tag, imgId⟩ := p
    intro st st' h
    by_cases ht : tag = "HEAD"
    · subst ht
      simp only [MetaState.set_tags, ne_eq, not_true_eq_false, if_false] at h
      exact ih _ _ h
    · cases imgId with
      | none =>
        simp only [MetaState.set_tags, ne_eq, ht, not_false_eq_true, if_true] at h
        exact absurd h (by simp)
      | some ihash =>
        simp only [MetaState.set_tags, ne_eq, ht, not_false_eq_true, if_true] at h
        rw [ih _ _ h]
        exact alookup_setTag_other _ _ _ _ ht

theorem syncDownloadBranch_head (env : SyncEnv) (download_all : Bool) (meta : SyncMeta)
    (t s : MetaState) (ts : MetaState × MetaState)
    (h : syncDownloadBranch env download_all meta t s = Except.ok ts) :
    alookup ts.1.tags "HEAD" = none := by
  unfold syncDownloadBranch at h
  cases h2 : stepCheck env.failAt 2 with
  | error e => simp [h2] at h
  | ok u2 =>
    simp only [h2] at h
    cases h3 : stepCheck env.failAt 3 with
    | error e => simp [h3] at h
    | ok u3 =>
      simp only [h3] at h
      cases hda : download_all with
      | false =>
        simp only [hda, Bool.false_eq_true, if_false] at h
        cases h5 : stepCheck env.failAt 5 with
        | error e => simp [h5] at h
        | ok u5 =>
          simp only [h5] at h
          injection h with h
          subst h
          exact alookup_filter_head _
      | true =>
        simp only [hda, if_true] at h
        cases h4 : stepCheck env.failAt 4 with
        | error e => simp [h4] at h
        | ok u4 =>
          simp only [h4] at h
          cases h5 : stepCheck env.failAt 5 with
          | error e => simp [h5] at h
          | ok u5 =>
            simp only [h5] at h
            injection h with h
            subst h
            exact alookup_filter_head _

theorem syncUploadBranch_head (env : SyncEnv) (meta : SyncMeta)
    (t s : MetaState) (ts : MetaState × MetaState)
    (h : syncUploadBranch env meta t s = Except.ok ts) :
    alookup ts.1.tags "HEAD" = alookup t.tags "HEAD" := by
  unfold syncUploadBranch at h
  cases h2 : stepCheck env.failAt 2 with
  | error e => simp [h2] at h
  | ok u2 =>
    simp only [h2] at h
    cases h3 : stepCheck env.failAt 3 with
    | error e => simp [h3] at h
    | ok u3 =>
      simp only [h3] at h
      cases h4 : stepCheck env.failAt 4 with
      | error e => simp [h4] at h
      | ok u4 =>
        simp only [h4] at h
        cases h5 : stepCheck env.failAt 5 with
        | error e => simp [h5] at h
        | ok u5 =>
          simp only [h5] at h
          injection h with h
          subst h
          rfl

theorem syncFinish_head (env : SyncEnv) (meta : SyncMeta) (ts out : MetaState × MetaState)
    (h : syncFinish env meta ts = Except.ok out) :
    alookup out.1.tags "HEAD" = alookup ts.1.tags "HEAD" := by
  unfold syncFinish at h
  cases h6 : stepCheck env.failAt 6 with
  | error e => simp [h6] at h
  | ok u6 =>
    simp only [h6] at h
    cases hst : MetaState.set_tags { ts.1 with tables := ts.1.tables ++ meta.table_meta }
        meta.tags with
    | error e => simp [hst] at h
    | ok t2 =>
      simp only [hst] at h
      injection h with h
      subst h
      have hh := set_tags_ok_head meta.tags
        { ts.1 with tables := ts.1.tables ++ meta.table_meta } t2 hst
      simpa using hh

theorem syncSteps_head (env : SyncEnv) (download download_all : Bool) (meta : SyncMeta)
    (t s : MetaState) (ts : MetaState × MetaState)
    (h : syncSteps env download download_all meta t s = Except.ok ts) :
    (download = true → alookup ts.1.tags "HEAD" = none) ∧
    (download = false → alookup ts.1.tags "HEAD" = alookup t.tags "HEAD") := by
  unfold syncSteps at h
  cases h1 : stepCheck env.failAt 1 with
  | error e => simp [h1] at h
  | ok u1 =>
    simp only [h1] at h
    cases download with
    | true =>
      rw [if_pos rfl] at h
      cases hb : syncDownloadBranch env download_all meta
          { t with images := t.images ++ meta.new_images } s with
      | error e => simp [hb] at h
      | ok ts1 =>
        simp only [hb] at h
        refine ⟨fun _ => ?_, fun hf => absurd hf (by simp)⟩
        rw [syncFinish_head env meta ts1 ts h]
        exact syncDownloadBranch_head env download_all meta _ s ts1 hb
    | false =>
      rw [if_neg Bool.false_ne_true] at h
      cases hb : syncUploadBranch env meta
          { t with images := t.images ++ meta.new_images } s with
      | error e => simp [hb] at h
      | ok ts1 =>
        simp only [hb] at h
        refine ⟨fun hf => absurd hf (by simp), fun _ => ?_⟩
        rw [syncFinish_head env meta ts1 ts h]
        have hu := syncUploadBranch_head env meta
          { t with images := t.images ++ meta.new_images } s ts1 hb
        simpa using hu

/-- C8: `_sync` never transfers a HEAD tag to the target: `set_tags` skips
every HEAD entry of the received tag map, preserving the target's HEAD; in
download mode `_sync` explicitly unsets the target's HEAD, so after a
successful download-mode sync of new images the target has no HEAD tag at
all (in the committed state and the transaction view alike); in upload mode
a successful sync leaves the target's HEAD exactly as it was, so it never
points at a synced image. -/
theorem C8_head_never_synced (env : SyncEnv) (download_all : Bool)
    (target source : EngineTx) (st : MetaState) (tagmap : List (String × Option String)) :
    (∀ st', MetaState.set_tags st tagmap = Except.ok st' →
      alookup st'.tags "HEAD" = alookup st.tags "HEAD") ∧
    (∀ meta, env.gather = Except.ok meta → meta.new_images ≠ [] →
      (_sync env true download_all target source).1 = Except.ok () →
      alookup (_sync env true download_all target source).2.1.cur.tags "HEAD" = none ∧
      alookup (_sync env true download_all target source).2.1.base.tags "HEAD" = none) ∧
    ((_sync env false download_all target source).1 = Except.ok () →
      alookup (_sync env false download_all target source).2.1.cur.tags "HEAD" =
        alookup target.cur.tags "HEAD") := by
  refine ⟨?_, ?_, ?_⟩
  · intro st' h
    exact set_tags_ok_head tagmap st st' h
  · intro meta hg hne hok
    simp only [_sync, hg, if_neg hne] at hok ⊢
    cases hs : syncSteps env true download_all meta target.cur source.cur with
    | error e =>
      simp only [hs] at hok
      exact absurd hok (by simp)
    | ok ts =>
      simp only [hs]
      have hh := (syncSteps_head env true download_all meta target.cur source.cur ts hs).1 rfl
      exact ⟨hh, hh⟩
  · intro hok
    cases hg : env.gather with
    | error e => simp [_sync, hg] at hok
    | ok meta =>
      by_cases hemp : meta.new_images = []
      · simp only [_sync, hg, if_pos hemp]
      · simp only [_sync, hg, if_neg hemp] at hok ⊢
        cases hs : syncSteps env false download_all meta target.cur source.cur with
        | error e =>
          simp only [hs] at hok
          exact absurd hok (by simp)
        | ok ts =>
          simp only [hs]
          exact (syncSteps_head env false download_all meta target.cur source.cur ts hs).2 rfl

def c8Meta : SyncMeta :=
  { new_images := [SyncImage.mk "img3" none], table_meta := [], object_locations := [],
    object_meta := [], tags := [("v1", some "img3")] }

def c8Env : SyncEnv :=
  { gather := Except.ok c8Meta, new_uploads := [], failAt := none }

def c8Target : MetaState :=
  { images := [], objects := [], locations := [], tables := [],
    tags := [("HEAD", "img0")], payloads := [] }

theorem C8_head_never_synced_witness :
    alookup (_sync c8Env true false (EngineTx.mk c8Target c8Target)
      (EngineTx.mk c8Target c8Target)).2.1.cur.tags "HEAD" = none :=
  ((C8_head_never_synced c8Env false (EngineTx.mk c8Target c8Target)
    (EngineTx.mk c8Target c8Target) c8Target []).2.1 c8Meta rfl (by decide) rfl).1

/-! ## Table import (repository.py: Repository.import_tables lines 605-696,
_import_tables lines 698-770) -/

/-- A repository's metadata plus working area as `import_tables` sees it. -/
structure ImpRepoState where
  /-- (image_hash, parent_id) image rows -/
  images : List (String × Option String)
  /-- image hash → its table descriptors -/
  imageTables : List (String × List (String × TableMeta))
  /-- (tag, image_hash) rows, HEAD included -/
  tags : List (String × String)
  /-- get_all_tables of the checked-out working schema -/
  workingTables : List String
deriving DecidableEq

/-- The exceptions the import path can raise. -/
inductive ImportErr where
  /-- ValueError: target_tables has to be defined if table_queries is used -/
  | queriesWithoutTables
  /-- ValueError: tables, source_tables and table_queries have mismatching lengths -/
  | lengthMismatch
  /-- ValueError: Table(s) ... already exist(s) at ... -/
  | tableClash (clashing : List String)
  /-- ImageNotFoundError from by_hash / self.images[parent_hash] -/
  | imageNotFound (hash : String)
  /-- head_strict: the source repository has no HEAD -/
  | noHead
  /-- the `assert image is not None` before defaulting source_tables (line 661) -/
  | assertionError
  /-- TableNotFoundError from image.get_table(source_table) -/
  | tableNotFound (table : String)
deriving DecidableEq

/-- The arguments of `import_tables`, after Python's `table_queries = None`
defaulting to the empty list; `rand` models `getrandbits(256)` for the
default target hash. -/
structure ImportArgs where
  tables : List String
  source_tables : List String
  image_hash : Option String
  foreign_tables : Bool
  do_checkout : Bool
  target_hash : Option String
  table_queries : List Bool
  parent_hash : Option String
  rand : Nat
deriving DecidableEq

/-- What the validation stage of `import_tables` resolves. -/
structure ImportResolved where
  /-- the source image (hash and descriptors); none when foreign_tables -/
  image : Option (String × List (String × TableMeta))
  tables : List String
  source_tables : List String
  table_queries : List Bool
  target_hash : String
  /-- the effective parent hash (argument, or the target's HEAD, or none) -/
  parent_hash : Option String
  /-- table names already present at the effective parent -/
  existing_tables : List String
deriving DecidableEq

/-- The validation and defaulting stage of `import_tables` (repository.py
lines 645-683), up to the computation of the table set the new targets are
checked against: resolve the source image (by hash or source HEAD), default
`source_tables`, `tables` and `table_queries`, check the three lengths, and
compute the effective parent and its table set (the parent image's tables
when `parent_hash` is given, otherwise the working schema's tables). -/
def importValidate (st srcSt : ImpRepoState) (a : ImportArgs) :
    Except ImportErr ImportResolved :=
  match
    (if a.foreign_tables then Except.ok none
     else
       match a.image_hash with
       | some h =>
         match alookup srcSt.imageTables h with
         | some ts => Except.ok (some (h, ts))
         | none => Except.error (ImportErr.imageNotFound h)
       | none =>
         match alookup srcSt.tags "HEAD" with
         | some hh => Except.ok (some (hh, (alookup srcSt.imageTables hh).getD []))
         | none => Except.error ImportErr.noHead) with
  | Except.error e => Except.error e
  | Except.ok image =>
    match
      (if a.source_tables = [] then
        match image with
        | none => Except.error ImportErr.assertionError
        | some img => Except.ok (img.2.map Prod.fst)
      else Except.ok a.source_tables) with
    | Except.error e => Except.error e
    | Except.ok source_tables =>
      match
        (if a.tables = [] then
          if a.table_queries ≠ [] then Except.error ImportErr.queriesWithoutTables
          else Except.ok source_tables
        else Except.ok a.tables) with
      | Except.error e => Except.error e
      | Except.ok tables =>
        match
          (if a.table_queries = [] then Except.ok (List.replicate tables.length false)
           else Except.ok a.table_queries : Except ImportErr (List Bool)) with
        | Except.error e => Except.error e
        | Except.ok table_queries =>
          if tables.length ≠ source_tables.length ∨
              source_tables.length ≠ table_queries.length then
            Except.error ImportErr.lengthMismatch
          else
            match
              (match a.parent_hash with
               | some p =>
                 match alookup st.imageTables p with
                 | some ts => Except.ok (some p, ts.map Prod.fst)
                 | none => Except.error (ImportErr.imageNotFound p)
               | none => Except.ok (alookup st.tags "HEAD", st.workingTables) :
                Except ImportErr (Option String × List String)) with
            | Except.error e => Except.error e
            | Except.ok pe =>
              Except.ok (ImportResolved.mk image tables source_tables table_queries
                (match a.target_hash with
                 | some h => h
                 | none => format_064x a.rand)
                pe.1 pe.2)

/-- One target of the import loop (repository.py lines 722-749): a query
run or a foreign-table copy becomes a fresh base fragment (the fragment
manager, outside src/, assigns new content-derived object ids — modelled as
`new_<target>`); otherwise the source descriptor's schema and object ids are
reused verbatim under the target name. -/
def importOne (image : Option (String × List (String × TableMeta))) (foreign_tables : Bool)
    (src tgt : String) (is_query : Bool) : Except ImportErr (String × TableMeta) :=
  if is_query && !foreign_tables then
    Except.ok (tgt, TableMeta.mk [] ["new_" ++ tgt])
  else if foreign_tables then
    Except.ok (tgt, TableMeta.mk [] ["new_" ++ tgt])
  else
    match image with
    | none => Except.error ImportErr.assertionError
    | some img =>
      match alookup img.2 src with
      | none => Except.error (ImportErr.tableNotFound src)
      | some tm => Except.ok (tgt, tm)

def importLoop (image : Option (String × List (String × TableMeta))) (foreign_tables : Bool) :
    List ((String × String) × Bool) → Except ImportErr (List (String × TableMeta))
  | [] => Except.ok []
  | ((src, tgt), q) :: rest =>
    match importOne image foreign_tables src tgt q with
    | Except.error e => Except.error e
    | Except.ok d =>
      match importLoop image foreign_tables rest with
      | Except.error e => Except.error e
      | Except.ok ds => Except.ok (d :: ds)

/-- `_import_tables` (repository.py lines 698-770): register the new image,
register each target table, carry the parent image's tables forward into the
new image, and check out / move HEAD when requested. An exception mid-way
leaves the mutations already made (no rollback inside the call). -/
def _import_tables (st : ImpRepoState) (r : ImportResolved)
    (foreign_tables do_checkout : Bool) : Except ImportErr String × ImpRepoState :=
  let st1 := { st with images := st.images ++ [(r.target_hash, r.parent_hash)] }
  match importLoop r.image foreign_tables ((r.source_tables.zip r.tables).zip r.table_queries) with
  | Except.error e => (Except.error e, st1)
  | Except.ok newDescs =>
    let carried :=
      match r.parent_hash with
      | some p => (alookup st1.imageTables p).getD []
      | none => []
    let st2 := { st1 with
      imageTables := st1.imageTables ++ [(r.target_hash, newDescs ++ carried)] }
    let st3 :=
      if do_checkout then
        { st2 with workingTables := st2.workingTables ++ r.tables,
                   tags := setTag st2.tags "HEAD" r.target_hash }
      else st2
    (Except.ok r.target_hash, st3)

/-- `Repository.import_tables` (repository.py lines 605-696): validate and
default the arguments, raise the clash ValueError when any target table is
already present at the effective parent, otherwise run `_import_tables`. The
repository state is threaded through; an error raised before registration
leaves it unchanged. -/
def import_tables (st srcSt : ImpRepoState) (a : ImportArgs) :
    Except ImportErr String × ImpRepoState :=
  match importValidate st srcSt a with
  | Except.error e => (Except.error e, st)
  | Except.ok r =>
    match r.tables.filter (fun t => t ∈ r.existing_tables) with
    | [] => _import_tables st r a.foreign_tables a.do_checkout
    | c :: cs => (Except.error (ImportErr.tableClash (c :: cs)), st)

/-- C5: whenever the validation stage succeeds and some requested target
table name is already present in the effective parent's table set — the
parent image's tables when `parent_hash` is given, the working schema's
tables when it is null — `import_tables` fails with the clash error naming
that table, and it fails before registering any new image, table descriptor
or object: the target repository state is unchanged. -/
theorem C5_import_tables_clash (st srcSt : ImpRepoState) (a : ImportArgs)
    (r : ImportResolved) (hv : importValidate st srcSt a = Except.ok r)
    (t : String) (hmem : t ∈ r.tables) (hex : t ∈ r.existing_tables) :
    (∃ clashing, (import_tables st srcSt a).1 = Except.error (ImportErr.tableClash clashing) ∧
      t ∈ clashing) ∧
    (import_tables st srcSt a).2 = st ∧
    (∀ p, a.parent_hash = some p →
      ∃ ts, alookup st.imageTables p = some ts ∧ r.existing_tables = ts.map Prod.fst) ∧
    (a.parent_hash = none → r.existing_tables = st.workingTables) := by
  have hfil : t ∈ r.tables.filter (fun t => t ∈ r.existing_tables) :=
    List.mem_filter.mpr ⟨hmem, by simpa using hex⟩
  have hmain : (∃ clashing,
      (import_tables st srcSt a).1 = Except.error (ImportErr.tableClash clashing) ∧
        t ∈ clashing) ∧ (import_tables st srcSt a).2 = st := by
    simp only [import_tables, hv]
    cases hc : r.tables.filter (fun t => t ∈ r.existing_tables) with
    | nil => rw [hc] at hfil; cases hfil
    | cons c cs =>
      exact ⟨⟨c :: cs, rfl, hc ▸ hfil⟩, rfl⟩
  refine ⟨hmain.1, hmain.2, ?_, ?_⟩
  · intro p hp
    unfold importValidate at hv
    split at hv
    · exact absurd hv (by simp)
    · split at hv
      · exact absurd hv (by simp)
      · split at hv
        · exact absurd hv (by simp)
        · split at hv
          · exact absurd hv (by simp)
          · split at hv
            · exact absurd hv (by simp)
            · split at hv
              · exact absurd hv (by simp)
              · rename_i pe hpe
                simp only [hp] at hpe
                cases hts : alookup st.imageTables p with
                | none =>
                  simp only [hts] at hpe
                  exact absurd hpe (by simp)
                | some ts =>
                  simp only [hts] at hpe
                  injection hv with hv
                  injection hpe with hpe
                  refine ⟨ts, rfl, ?_⟩
                  rw [← hv]
                  simp [← hpe]
  · intro hp
    unfold importValidate at hv
    split at hv
    · exact absurd hv (by simp)
    · split at hv
      · exact absurd hv (by simp)
      · split at hv
        · exact absurd hv (by simp)
        · split at hv
          · exact absurd hv (by simp)
          · split at hv
            · exact absurd hv (by simp)
            · split at hv
              · exact absurd hv (by simp)
              · rename_i pe hpe
                simp only [hp] at hpe
                injection hv with hv
                injection hpe with hpe
                rw [← hv]
                simp [← hpe]

def c5St : ImpRepoState :=
  { images := [], imageTables := [], tags := [], workingTables := ["t"] }

def c5Args : ImportArgs :=
  { tables := ["t"], source_tables := ["t"], image_hash := none, foreign_tables := true,
    do_checkout := true, target_hash := some "th", table_queries := [], parent_hash := none,
    rand := 0 }

def c5Resolved : ImportResolved :=
  { image := none, tables := ["t"], source_tables := ["t"], table_queries := [false],
    target_hash := "th", parent_hash := none, existing_tables := ["t"] }

theorem C5_import_tables_clash_witness :
    (importValidate c5St c5St c5Args = Except.ok c5Resolved) ∧
    ("t" ∈ c5Resolved.tables) ∧ ("t" ∈ c5Resolved.existing_tables) ∧
    ((import_tables c5St c5St c5Args).2 = c5St) :=
  ⟨rfl, by decide, by decide,
   (C5_import_tables_clash c5St c5St c5Args c5Resolved rfl "t" (by decide) (by decide)).2.1⟩

end Splitgraph
